import Mathlib

/-!
# Verification of the dex-math constant-product pricing core

Shallow embedding of the repository's arithmetic core (`src/utils.rs`,
`src/swap.rs`, `src/liquidity.rs`) over `Nat`, with machine-integer
behaviour (u128 / u64 overflow, checked arithmetic, `unwrap` panics)
made explicit, together with theorems settling the specification's
claims about it.
-/

namespace DexMath

/-- Largest value of Rust's `u128`. -/
def U128MAX : Nat := 2 ^ 128 - 1

/-- Largest value of Rust's `u64`. -/
def U64MAX : Nat := 2 ^ 64 - 1

/-- Modelled from the spec: the repository re-exports `MAX_PERCENTAGE` from a
`constants` module whose file is absent from the sources; per the rate
comments in `state.rs` (`10^6 = 100%`) it is the fixed denominator
representing 100%. -/
def MAX_PERCENTAGE : Nat := 1000000

/-- Outcome of a Rust computation over `Option` values: `ok` (a `Some`
result), `fail` (the function returned `None`, e.g. through the `?`
operator), or `abort` (the process panicked, e.g. `Option::unwrap` on
`None`). -/
inductive RRes (α : Type) where
  | ok (a : α)
  | fail
  | abort
  deriving Repr, DecidableEq

namespace RRes

/-- Monadic sequencing of Rust computations: `fail` and `abort` propagate. -/
def bind {α β : Type} : RRes α → (α → RRes β) → RRes β
  | ok a, f => f a
  | fail, _ => fail
  | abort, _ => abort

/-- Rust `Option::unwrap`: a `None` becomes a panic. -/
def unwrap {α : Type} : Option α → RRes α
  | some a => ok a
  | none => abort

/-- Rust's `?` operator on an `Option`: a `None` is returned to the caller. -/
def tryOp {α : Type} : Option α → RRes α
  | some a => ok a
  | none => fail

/-- Rust `.unwrap()` applied to the `Option` result of a fallible helper:
a surfaced `None` turns into a panic, a panic stays a panic. -/
def unwrapped {α : Type} : RRes α → RRes α
  | ok a => ok a
  | fail => abort
  | abort => abort

end RRes

/-- Rust `u128::checked_mul`. -/
def checked_mul (a b : Nat) : Option Nat :=
  if a * b ≤ U128MAX then some (a * b) else none

/-- Rust `u128::checked_add`. -/
def checked_add (a b : Nat) : Option Nat :=
  if a + b ≤ U128MAX then some (a + b) else none

/-- Rust `u128::checked_sub`. -/
def checked_sub (a b : Nat) : Option Nat :=
  if b ≤ a then some (a - b) else none

/-- Rust `u128::checked_div`: `None` exactly on a zero divisor. -/
def checked_div (a b : Nat) : Option Nat :=
  if b = 0 then none else some (a / b)

/-- Model of `ceil_div` from `src/utils.rs`: `(amount * num + den - 1) / den` with the
multiplication `unwrap`ped (a multiplication overflow panics) and the
addition/subtraction/division surfaced through `?` / the returned `Option`. -/
def ceil_div (token_amount fee_numerator fee_denominator : Nat) : RRes Nat :=
  (RRes.unwrap (checked_mul token_amount fee_numerator)).bind fun p =>
    (RRes.tryOp (checked_add p fee_denominator)).bind fun s =>
      (RRes.tryOp (checked_sub s 1)).bind fun s1 =>
        RRes.tryOp (checked_div s1 fee_denominator)

/-- Model of `floor_div` from `src/utils.rs`: both the multiplication and the division
are surfaced through `?`. -/
def floor_div (token_amount fee_numerator fee_denominator : Nat) : RRes Nat :=
  (RRes.tryOp (checked_mul token_amount fee_numerator)).bind fun p =>
    RRes.tryOp (checked_div p fee_denominator)

/-- Model of `get_trade_fee` from `src/utils.rs`. -/
def get_trade_fee (amount trade_fee_rate : Nat) : RRes Nat :=
  ceil_div amount trade_fee_rate MAX_PERCENTAGE

/-- Model of `get_protocol_fee` from `src/utils.rs`. -/
def get_protocol_fee (amount protocol_fee_rate : Nat) : RRes Nat :=
  floor_div amount protocol_fee_rate MAX_PERCENTAGE

/-- Model of `swap_base_input_without_fees` from `src/utils.rs`: every step is
`unwrap`ped, so any checked failure is a panic. -/
def swap_base_input_without_fees
    (source_amount swap_source_amount swap_destination_amount : Nat) :
    RRes Nat :=
  (RRes.unwrap (checked_mul source_amount swap_destination_amount)).bind
    fun numerator =>
      (RRes.unwrap (checked_add swap_source_amount source_amount)).bind
        fun denominator =>
          RRes.unwrap (checked_div numerator denominator)

/-- Structure `SwapResult` from `src/state.rs` (u64 fields). -/
structure SwapResult where
  from_amount : Nat
  to_amount : Nat
  trade_fee : Nat
  protocol_fee : Nat
  deriving Repr, DecidableEq

/-- Model of `swap` from `src/utils.rs`.  The fee helpers' `Option` results are
`unwrap`ped, the subtraction is `unwrap`ped, and the final fields are
narrowed `as u64` (truncation modulo `2^64`). -/
def swap (source_amount pool_source_amount pool_destination_amount
    trade_fee_rate protocol_fee_rate : Nat) : RRes SwapResult :=
  ((get_trade_fee source_amount trade_fee_rate).unwrapped).bind fun trade_fee =>
    ((get_protocol_fee trade_fee protocol_fee_rate).unwrapped).bind
      fun protocol_fee =>
        (RRes.unwrap (checked_sub source_amount trade_fee)).bind
          fun source_amount_post_fees =>
            (swap_base_input_without_fees source_amount_post_fees
                pool_source_amount pool_destination_amount).bind
              fun destination_amount_swapped =>
                RRes.ok
                  { from_amount := source_amount_post_fees % 2 ^ 64
                    to_amount := destination_amount_swapped % 2 ^ 64
                    trade_fee := trade_fee % 2 ^ 64
                    protocol_fee := protocol_fee % 2 ^ 64 }

/-- Structure `RebalanceResult` from `src/state.rs`. -/
structure RebalanceResult where
  from_to_lock : Nat
  is_rate_tolerance_exceeded : Bool
  deriving Repr, DecidableEq

/-- Model of `rebalance_pool_ratio` (identical copies in `src/swap.rs` and
`src/utils.rs`): the integer guard on degenerate inputs is translated
exactly; the remainder of the function performs a floating-point
(`f64`) ratio search and is kept opaque as the continuation `rest`,
which receives the same six arguments. -/
def rebalance_pool_ratio
    (rest : Nat → Nat → Nat → Nat → Nat → Nat → Option RebalanceResult)
    (to_amount_swapped current_source_amount current_destination_amount
      original_source_amount original_destination_amount
      ratio_change_tolerance_rate : Nat) : Option RebalanceResult :=
  if current_destination_amount ≤ to_amount_swapped ∨
      current_source_amount = 0 ∨ current_destination_amount = 0 then
    some { from_to_lock := 0, is_rate_tolerance_exceeded := true }
  else
    rest to_amount_swapped current_source_amount current_destination_amount
      original_source_amount original_destination_amount
      ratio_change_tolerance_rate

/-- The subset of `ErrorCode` (`src/errors.rs`) that `quote` can produce. -/
inductive ErrorCode where
  | InputAmountTooSmall
  | MathOverflow
  | TradeTooBig
  | InsufficientPoolTokenXBalance
  | InsufficientPoolTokenYBalance
  | OutputIsZero
  deriving Repr, DecidableEq

/-- Structure `AmmConfig` from `src/state.rs`. -/
structure AmmConfig where
  trade_fee_rate : Nat
  create_pool_fee : Nat
  protocol_fee_rate : Nat
  wsol_trade_deposit : Nat
  deadline_slot_duration : Nat
  ratio_change_tolerance_rate : Nat
  halted : Bool
  deriving Repr, DecidableEq

/-- Structure `SwapResultWithFromToLock` from `src/state.rs`. -/
structure SwapResultWithFromToLock where
  from_amount : Nat
  to_amount : Nat
  trade_fee : Nat
  protocol_fee : Nat
  from_to_lock : Nat
  deriving Repr, DecidableEq

/-- Structure `QuoteOutput` from `src/state.rs`. -/
structure QuoteOutput where
  from_amount : Nat
  to_amount : Nat
  from_amount_after_transfer_fees : Nat
  to_amount_after_transfer_fees : Nat
  trade_fee : Nat
  protocol_fee : Nat
  from_to_lock : Nat
  deriving Repr, DecidableEq

/-- Outcome of `quote`: an `Ok` value, an anchor `err!(...)` error, or a
panic inside one of the `unwrap`s. -/
inductive QRes where
  | ok (q : QuoteOutput)
  | err (e : ErrorCode)
  | abort
  deriving Repr, DecidableEq

/-- A `TransferFeeConfig` is external (`spl_token_2022`); the spec treats it
as an opaque epoch-aware fee schedule, so it is modelled as a function
`epoch → pre_fee_amount → Option fee` standing for `calculate_epoch_fee`. -/
def TransferFeeSchedule : Type := Nat → Nat → Option Nat

/-- Model of `get_transfer_fee` from `src/utils.rs`: no schedule means fee 0,
otherwise the external schedule's result is `unwrap`ped (its `None`
panics).  The Rust `Err` arm of the returned `Result` is never built. -/
def get_transfer_fee (transfer_fee_config : Option TransferFeeSchedule)
    (pre_fee_amount epoch : Nat) : RRes Nat :=
  match transfer_fee_config with
  | none => RRes.ok 0
  | some schedule => RRes.unwrap (schedule epoch pre_fee_amount)

/-- Sequencing for `Option::unwrap` inside `quote`: `None` panics. -/
def ofUnwrap {α : Type} (o : Option α) (k : α → QRes) : QRes :=
  match o with
  | some a => k a
  | none => QRes.abort

/-- Sequencing for `get_transfer_fee(...)?` inside `quote`: the helper never
builds an `Err`, so only the `ok` and panic outcomes are live (the dead
`fail` arm is mapped to a panic). -/
def ofTransfer (x : RRes Nat) (k : Nat → QRes) : QRes :=
  match x with
  | RRes.ok a => k a
  | RRes.fail => QRes.abort
  | RRes.abort => QRes.abort

/-- Sequencing for `swap(...).ok_or(ErrorCode::MathOverflow)?` inside
`quote`. -/
def ofSwap (x : RRes SwapResult) (k : SwapResult → QRes) : QRes :=
  match x with
  | RRes.ok a => k a
  | RRes.fail => QRes.err ErrorCode.MathOverflow
  | RRes.abort => QRes.abort

/-- Sequencing for `rebalance_pool_ratio(...).ok_or(ErrorCode::MathOverflow)?`
inside `quote`. -/
def ofRebalance (x : Option RebalanceResult) (k : RebalanceResult → QRes) :
    QRes :=
  match x with
  | some a => k a
  | none => QRes.err ErrorCode.MathOverflow

/-- Tail of `quote` (`src/swap.rs` lines 157-188), shared by both trade
directions: pick the output mint's transfer-fee schedule, deduct the output
transfer fee (`checked_sub(...).unwrap()`), reject a zero payout and
assemble the `QuoteOutput`.  The Rust locals `output_mint` and
`output_transfer_fee_config` are inlined. -/
def quote_epilogue (is_swap_x_to_y : Bool)
    (token_x_transfer_fee_config token_y_transfer_fee_config :
      Option TransferFeeSchedule)
    (token_x_mint token_y_mint epoch : Nat)
    (result_amounts : SwapResultWithFromToLock) (exchange_in : Nat) : QRes :=
  ofTransfer (get_transfer_fee
      (if (if is_swap_x_to_y then token_y_mint else token_x_mint) =
          token_x_mint then
        token_x_transfer_fee_config
      else token_y_transfer_fee_config)
      result_amounts.to_amount epoch) fun output_transfer_fee =>
    ofUnwrap (checked_sub result_amounts.to_amount output_transfer_fee)
      fun user_received_amount =>
        if user_received_amount = 0 then QRes.err ErrorCode.OutputIsZero
        else
          QRes.ok
            { from_amount := result_amounts.from_amount
              to_amount := result_amounts.to_amount
              from_amount_after_transfer_fees := exchange_in
              to_amount_after_transfer_fees := user_received_amount
              trade_fee := result_amounts.trade_fee
              protocol_fee := result_amounts.protocol_fee
              from_to_lock := result_amounts.from_to_lock }

/-- Model of `quote` from `src/swap.rs`.  The concrete `rebalance_pool_ratio` callee
is floating-point, so it is passed in as the oracle `rebalanceFn` (same six
arguments, same `Option<RebalanceResult>` shape); everything else is the
source's control flow: obtain totals and availables by panicking
subtractions, deduct the input transfer fee (saturating), reject a zero
exchange amount, swap, rebalance, apply the tolerance and the
direction-dependent lock boundary checks, then the shared epilogue. -/
def quote
    (rebalanceFn : Nat → Nat → Nat → Nat → Nat → Nat → Option RebalanceResult)
    (amount_in : Nat) (is_swap_x_to_y : Bool) (amm_config : AmmConfig)
    (token_x_transfer_fee_config token_y_transfer_fee_config :
      Option TransferFeeSchedule)
    (token_x_mint token_y_mint : Nat)
    (protocol_fee_x protocol_fee_y user_locked_x user_locked_y
      locked_x locked_y reserve_x_balance reserve_y_balance epoch : Nat) :
    QRes :=
  ofUnwrap (checked_sub reserve_x_balance protocol_fee_x) fun tx =>
  ofUnwrap (checked_sub tx user_locked_x) fun total_token_x_amount =>
  ofUnwrap (checked_sub reserve_y_balance protocol_fee_y) fun ty =>
  ofUnwrap (checked_sub ty user_locked_y) fun total_token_y_amount =>
  ofUnwrap (checked_sub total_token_x_amount locked_x)
    fun available_token_x_amount =>
  ofUnwrap (checked_sub total_token_y_amount locked_y)
    fun available_token_y_amount =>
  if is_swap_x_to_y then
    ofTransfer (get_transfer_fee token_x_transfer_fee_config amount_in epoch)
      fun input_transfer_fee =>
        if amount_in - input_transfer_fee = 0 then
          QRes.err ErrorCode.InputAmountTooSmall
        else
          ofSwap (swap (amount_in - input_transfer_fee)
              available_token_x_amount
              available_token_y_amount amm_config.trade_fee_rate
              amm_config.protocol_fee_rate) fun result_amounts =>
            ofRebalance (rebalanceFn result_amounts.to_amount
                available_token_x_amount available_token_y_amount
                total_token_x_amount total_token_y_amount
                amm_config.ratio_change_tolerance_rate) fun rebalance_result =>
              if rebalance_result.is_rate_tolerance_exceeded then
                QRes.err ErrorCode.TradeTooBig
              else if available_token_x_amount ≤
                  rebalance_result.from_to_lock then
                QRes.err ErrorCode.InsufficientPoolTokenXBalance
              else
                quote_epilogue is_swap_x_to_y token_x_transfer_fee_config
                  token_y_transfer_fee_config token_x_mint token_y_mint epoch
                  { from_amount := result_amounts.from_amount
                    to_amount := result_amounts.to_amount
                    trade_fee := result_amounts.trade_fee
                    protocol_fee := result_amounts.protocol_fee
                    from_to_lock := rebalance_result.from_to_lock }
                  (amount_in - input_transfer_fee)
  else
    ofTransfer (get_transfer_fee token_y_transfer_fee_config amount_in epoch)
      fun input_transfer_fee =>
        if amount_in - input_transfer_fee = 0 then
          QRes.err ErrorCode.InputAmountTooSmall
        else
          ofSwap (swap (amount_in - input_transfer_fee)
              available_token_y_amount
              available_token_x_amount amm_config.trade_fee_rate
              amm_config.protocol_fee_rate) fun result_amounts =>
            ofRebalance (rebalanceFn result_amounts.to_amount
                available_token_y_amount available_token_x_amount
                total_token_y_amount total_token_x_amount
                amm_config.ratio_change_tolerance_rate) fun rebalance_result =>
              if rebalance_result.is_rate_tolerance_exceeded then
                QRes.err ErrorCode.TradeTooBig
              else if available_token_y_amount <
                  rebalance_result.from_to_lock then
                QRes.err ErrorCode.InsufficientPoolTokenYBalance
              else
                quote_epilogue is_swap_x_to_y token_x_transfer_fee_config
                  token_y_transfer_fee_config token_x_mint token_y_mint epoch
                  { from_amount := result_amounts.from_amount
                    to_amount := result_amounts.to_amount
                    trade_fee := result_amounts.trade_fee
                    protocol_fee := result_amounts.protocol_fee
                    from_to_lock := rebalance_result.from_to_lock }
                  (amount_in - input_transfer_fee)

/-- Model of `deposit_lp` from `src/liquidity.rs`.  The `total_lp_supply == 0` branch
computes `((a as u128 * b as u128) as f64).sqrt() as u64`; that
floating-point pipeline is kept opaque as the parameter `sqrtF` applied to
the exact (u128-widened) product.  In the other branch the multiplications
are performed directly on `u64` — NOT widened — so they wrap modulo `2^64`
in release builds (with overflow checks they would panic; either way the
product is not computed in double width).  A zero reserve makes the Rust
division panic; the claims settled here restrict to nonzero divisors. -/
def deposit_lp (sqrtF : Nat → Nat)
    (token_a_amount token_b_amount total_lp_supply
      token_a_reserve token_b_reserve : Nat) : Nat :=
  if total_lp_supply = 0 then
    sqrtF (token_a_amount * token_b_amount)
  else
    min (token_a_amount * total_lp_supply % 2 ^ 64 / token_a_reserve)
      (token_b_amount * total_lp_supply % 2 ^ 64 / token_b_reserve)

/-- Model of `withdraw_lp` from `src/liquidity.rs`; same unwidened `u64`
multiplications as `deposit_lp`. -/
def withdraw_lp (lp_tokens total_lp_supply token_a_reserve
    token_b_reserve : Nat) : Nat × Nat :=
  if total_lp_supply = 0 then (0, 0)
  else
    (lp_tokens * token_a_reserve % 2 ^ 64 / total_lp_supply,
      lp_tokens * token_b_reserve % 2 ^ 64 / total_lp_supply)

/-! ## Inversion lemmas for the checked-arithmetic plumbing -/

theorem checked_mul_eq_some {a b c : Nat} (h : checked_mul a b = some c) :
    c = a * b ∧ a * b ≤ U128MAX := by
  unfold checked_mul at h
  split at h
  · exact ⟨(Option.some.injEq _ _).mp h |>.symm, by assumption⟩
  · cases h

theorem checked_add_eq_some {a b c : Nat} (h : checked_add a b = some c) :
    c = a + b ∧ a + b ≤ U128MAX := by
  unfold checked_add at h
  split at h
  · exact ⟨(Option.some.injEq _ _).mp h |>.symm, by assumption⟩
  · cases h

theorem checked_sub_eq_some {a b c : Nat} (h : checked_sub a b = some c) :
    c = a - b ∧ b ≤ a := by
  unfold checked_sub at h
  split at h
  · exact ⟨(Option.some.injEq _ _).mp h |>.symm, by assumption⟩
  · cases h

theorem checked_div_eq_some {a b c : Nat} (h : checked_div a b = some c) :
    c = a / b ∧ b ≠ 0 := by
  unfold checked_div at h
  split at h
  · cases h
  · exact ⟨(Option.some.injEq _ _).mp h |>.symm, by assumption⟩

theorem unwrap_eq_ok {α : Type} {o : Option α} {a : α}
    (h : RRes.unwrap o = RRes.ok a) : o = some a := by
  cases o with
  | some b => cases h; rfl
  | none => cases h

theorem tryOp_eq_ok {α : Type} {o : Option α} {a : α}
    (h : RRes.tryOp o = RRes.ok a) : o = some a := by
  cases o with
  | some b => cases h; rfl
  | none => cases h

theorem bind_eq_ok {α β : Type} {x : RRes α} {f : α → RRes β} {b : β}
    (h : RRes.bind x f = RRes.ok b) : ∃ a, x = RRes.ok a ∧ f a = RRes.ok b := by
  cases x with
  | ok a => exact ⟨a, rfl, h⟩
  | fail => cases h
  | abort => cases h

theorem unwrapped_eq_ok {α : Type} {x : RRes α} {a : α}
    (h : x.unwrapped = RRes.ok a) : x = RRes.ok a := by
  cases x with
  | ok b => cases h; rfl
  | fail => cases h
  | abort => cases h

/-- Inversion for the fee-less swap engine: a returned value is exactly the
floor quotient, the denominator is nonzero, and the intermediates fit. -/
theorem swap_base_input_without_fees_eq_ok
    {n S D d : Nat} (h : swap_base_input_without_fees n S D = RRes.ok d) :
    d = n * D / (S + n) ∧ S + n ≠ 0 ∧ n * D ≤ U128MAX ∧ S + n ≤ U128MAX := by
  unfold swap_base_input_without_fees at h
  obtain ⟨num, hnum, h⟩ := bind_eq_ok h
  obtain ⟨den, hden, h⟩ := bind_eq_ok h
  obtain ⟨hnum1, hnum2⟩ := checked_mul_eq_some (unwrap_eq_ok hnum)
  obtain ⟨hden1, hden2⟩ := checked_add_eq_some (unwrap_eq_ok hden)
  obtain ⟨hd1, hd2⟩ := checked_div_eq_some (unwrap_eq_ok h)
  subst hnum1; subst hden1; subst hd1
  exact ⟨rfl, hd2, hnum2, hden2⟩

/-- Core arithmetic fact behind the invariant claim: removing the floor
quotient `n*D/(S+n)` from `D` keeps the product at least `S*D`. -/
theorem constant_product_key (n S D : Nat) :
    S * D ≤ (S + n) * (D - n * D / (S + n)) := by
  set s := S + n with hs
  by_cases h0 : s = 0
  · have hS : S = 0 := by omega
    simp [hS]
  · have hq : n * D / s * s ≤ n * D := Nat.div_mul_le_self _ _
    have hle : n * D / s ≤ D := by
      have hn : n ≤ s := by omega
      have : n * D ≤ s * D := Nat.mul_le_mul_right D hn
      calc n * D / s ≤ s * D / s := Nat.div_le_div_right this
        _ = D := Nat.mul_div_cancel_left D (Nat.pos_of_ne_zero h0)
    have hexp : s * (D - n * D / s) = s * D - s * (n * D / s) :=
      Nat.mul_sub s D (n * D / s)
    rw [hexp]
    have h1 : s * (n * D / s) ≤ n * D := by
      rw [Nat.mul_comm]; exact hq
    have h2 : s * D = S * D + n * D := by rw [hs, Nat.add_mul]
    omega

@[simp] theorem RRes.ok_bind {α β : Type} (a : α) (f : α → RRes β) :
    (RRes.ok a).bind f = f a := rfl

@[simp] theorem RRes.fail_bind {α β : Type} (f : α → RRes β) :
    (RRes.fail : RRes α).bind f = RRes.fail := rfl

@[simp] theorem RRes.abort_bind {α β : Type} (f : α → RRes β) :
    (RRes.abort : RRes α).bind f = RRes.abort := rfl

@[simp] theorem RRes.unwrap_some {α : Type} (a : α) :
    RRes.unwrap (some a) = RRes.ok a := rfl

@[simp] theorem RRes.unwrap_none {α : Type} :
    RRes.unwrap (none : Option α) = RRes.abort := rfl

@[simp] theorem RRes.tryOp_some {α : Type} (a : α) :
    RRes.tryOp (some a) = RRes.ok a := rfl

@[simp] theorem RRes.tryOp_none {α : Type} :
    RRes.tryOp (none : Option α) = RRes.fail := rfl

@[simp] theorem RRes.unwrapped_ok {α : Type} (a : α) :
    (RRes.ok a).unwrapped = RRes.ok a := rfl

/-- Computation rule: sequencing an `unwrap` of a present value. -/
theorem bind_unwrap_some {α β : Type} {o : Option α} {a : α} (h : o = some a)
    (f : α → RRes β) : (RRes.unwrap o).bind f = f a := by subst h; rfl

/-- Computation rule: sequencing a `?`-propagated present value. -/
theorem bind_tryOp_some {α β : Type} {o : Option α} {a : α} (h : o = some a)
    (f : α → RRes β) : (RRes.tryOp o).bind f = f a := by subst h; rfl

/-- Computation rule: a `?` on a present value is a success. -/
theorem tryOp_eq_ok_of {α : Type} {o : Option α} {a : α} (h : o = some a) :
    RRes.tryOp o = RRes.ok a := by subst h; rfl

/-- Computation rule: an `unwrap` of a present value is a success. -/
theorem unwrap_eq_ok_of {α : Type} {o : Option α} {a : α} (h : o = some a) :
    RRes.unwrap o = RRes.ok a := by subst h; rfl

/-- The successful run of `ceil_div` underlying `get_trade_fee`: whenever
`amount * rate + MAX_PERCENTAGE` fits in `u128`, every checked step passes
and the result is `(amount * rate + (MAX_PERCENTAGE - 1)) / MAX_PERCENTAGE`. -/
theorem get_trade_fee_ok (a r : Nat)
    (h : a * r + MAX_PERCENTAGE ≤ U128MAX) :
    get_trade_fee a r =
      RRes.ok ((a * r + (MAX_PERCENTAGE - 1)) / MAX_PERCENTAGE) := by
  have hmul : checked_mul a r = some (a * r) := by
    unfold checked_mul; rw [if_pos (by omega)]
  have hadd : checked_add (a * r) MAX_PERCENTAGE =
      some (a * r + MAX_PERCENTAGE) := by
    unfold checked_add; rw [if_pos h]
  have hsub : checked_sub (a * r + MAX_PERCENTAGE) 1 =
      some (a * r + MAX_PERCENTAGE - 1) := by
    unfold checked_sub
    rw [if_pos (by unfold MAX_PERCENTAGE; omega)]
  have hdiv : checked_div (a * r + MAX_PERCENTAGE - 1) MAX_PERCENTAGE =
      some ((a * r + MAX_PERCENTAGE - 1) / MAX_PERCENTAGE) := by
    unfold checked_div
    rw [if_neg (by unfold MAX_PERCENTAGE; omega)]
  have harith : a * r + MAX_PERCENTAGE - 1 = a * r + (MAX_PERCENTAGE - 1) := by
    unfold MAX_PERCENTAGE; omega
  unfold get_trade_fee ceil_div
  rw [bind_unwrap_some hmul, bind_tryOp_some hadd, bind_tryOp_some hsub,
    tryOp_eq_ok_of hdiv, harith]

/-- The successful run of `floor_div` underlying `get_protocol_fee`:
whenever the product fits in `u128` the result is the floor quotient. -/
theorem get_protocol_fee_ok (a r : Nat) (h : a * r ≤ U128MAX) :
    get_protocol_fee a r = RRes.ok (a * r / MAX_PERCENTAGE) := by
  have hmul : checked_mul a r = some (a * r) := by
    unfold checked_mul; rw [if_pos h]
  have hdiv : checked_div (a * r) MAX_PERCENTAGE =
      some (a * r / MAX_PERCENTAGE) := by
    unfold checked_div
    rw [if_neg (by unfold MAX_PERCENTAGE; omega)]
  unfold get_protocol_fee floor_div
  rw [bind_tryOp_some hmul, tryOp_eq_ok_of hdiv]

/-- The value `(x + (M - 1)) / M` is the ceiling of `x / M`: order characterization. -/
theorem ceil_formula_bounds (x : Nat) :
    x ≤ (x + (MAX_PERCENTAGE - 1)) / MAX_PERCENTAGE * MAX_PERCENTAGE ∧
    (x + (MAX_PERCENTAGE - 1)) / MAX_PERCENTAGE * MAX_PERCENTAGE <
      x + MAX_PERCENTAGE := by
  have hM : 0 < MAX_PERCENTAGE := by decide
  have hub : (x + (MAX_PERCENTAGE - 1)) / MAX_PERCENTAGE * MAX_PERCENTAGE ≤
      x + (MAX_PERCENTAGE - 1) := Nat.div_mul_le_self _ _
  have hdm := Nat.div_add_mod (x + (MAX_PERCENTAGE - 1)) MAX_PERCENTAGE
  have hmod := Nat.mod_lt (x + (MAX_PERCENTAGE - 1)) hM
  have hc : MAX_PERCENTAGE * ((x + (MAX_PERCENTAGE - 1)) / MAX_PERCENTAGE) =
      (x + (MAX_PERCENTAGE - 1)) / MAX_PERCENTAGE * MAX_PERCENTAGE :=
    Nat.mul_comm _ _
  omega

/-- Floor characterization of `x / M`. -/
theorem floor_formula_bounds (x : Nat) :
    x / MAX_PERCENTAGE * MAX_PERCENTAGE ≤ x ∧
    x < (x / MAX_PERCENTAGE + 1) * MAX_PERCENTAGE := by
  have hM : 0 < MAX_PERCENTAGE := by decide
  have hub : x / MAX_PERCENTAGE * MAX_PERCENTAGE ≤ x := Nat.div_mul_le_self _ _
  have hdm := Nat.div_add_mod x MAX_PERCENTAGE
  have hmod := Nat.mod_lt x hM
  have hc : MAX_PERCENTAGE * (x / MAX_PERCENTAGE) =
      x / MAX_PERCENTAGE * MAX_PERCENTAGE := Nat.mul_comm _ _
  constructor
  · exact hub
  · have : (x / MAX_PERCENTAGE + 1) * MAX_PERCENTAGE =
        x / MAX_PERCENTAGE * MAX_PERCENTAGE + MAX_PERCENTAGE :=
      Nat.succ_mul _ _
    omega

/-! ## Claim theorems -/

/-- C1: for every `netSourceIn ≥ 1`, `poolSourceReserve ≥ 1`,
`poolDestReserve ≥ 1` with both `poolSourceReserve * poolDestReserve` and
`netSourceIn * poolDestReserve` within `u128` range, any output `destOut`
of `swap_base_input_without_fees` satisfies
`(S + n) * (D - destOut) ≥ S * D`: a fee-less swap never decreases the
constant product. -/
theorem C1_invariant_never_decreases (n S D : Nat)
    (hn : 1 ≤ n) (hS : 1 ≤ S) (hD : 1 ≤ D)
    (hSD : S * D ≤ U128MAX) (hnD : n * D ≤ U128MAX) :
    ∀ destOut, swap_base_input_without_fees n S D = RRes.ok destOut →
      S * D ≤ (S + n) * (D - destOut) := by
  intro d h
  obtain ⟨hd, -, -, -⟩ := swap_base_input_without_fees_eq_ok h
  subst hd
  exact constant_product_key n S D

/-- Witness for C1 at the spec's truncation-table point
`(10, 20000 - 10, 30000)` whose output is 15. -/
theorem C1_invariant_never_decreases_witness :
    19990 * 30000 ≤ (19990 + 10) * (30000 - 15) :=
  C1_invariant_never_decreases 10 19990 30000 (by decide) (by decide)
    (by decide) (by decide) (by decide) 15 (by decide)

/-- C2 counterexample: at `netSourceIn = 0`, `poolSourceReserve = 0`,
`poolDestReserve = 30000` the intermediate product and sum both fit in
`u128`, yet `swap_base_input_without_fees` panics on the zero denominator
(`checked_div(0).unwrap()`) instead of returning the floor quotient. -/
theorem C2_zero_denominator_counterexample :
    0 * 30000 ≤ U128MAX ∧ 0 + 0 ≤ U128MAX ∧
    swap_base_input_without_fees 0 0 30000 = RRes.abort := by decide

/-- C2 (amended): whenever the intermediate product and sum fit in `u128`
AND the denominator `poolSourceReserve + netSourceIn` is at least 1,
`swap_base_input_without_fees` returns exactly
`floor(netSourceIn * poolDestReserve / (poolSourceReserve + netSourceIn))`;
in particular the two truncation-table values hold. -/
theorem C2_swap_base_floor :
    (∀ n S D, n * D ≤ U128MAX → S + n ≤ U128MAX → 1 ≤ S + n →
      swap_base_input_without_fees n S D = RRes.ok (n * D / (S + n))) ∧
    swap_base_input_without_fees 10 4000000 70000000000 = RRes.ok 174999 ∧
    swap_base_input_without_fees 10 (20000 - 10) 30000 = RRes.ok 15 := by
  refine ⟨fun n S D h1 h2 h3 => ?_, by decide, by decide⟩
  have hmul : checked_mul n D = some (n * D) := by
    unfold checked_mul; rw [if_pos h1]
  have hadd : checked_add S n = some (S + n) := by
    unfold checked_add; rw [if_pos h2]
  have hdiv : checked_div (n * D) (S + n) = some (n * D / (S + n)) := by
    unfold checked_div; rw [if_neg (by omega)]
  unfold swap_base_input_without_fees
  rw [bind_unwrap_some hmul, bind_unwrap_some hadd, unwrap_eq_ok_of hdiv]

/-- Witness for C2 (amended) at `(10, 20000, 30000)`. -/
theorem C2_swap_base_floor_witness :
    swap_base_input_without_fees 10 20000 30000 =
      RRes.ok (10 * 30000 / (20000 + 10)) :=
  C2_swap_base_floor.1 10 20000 30000 (by decide) (by decide) (by decide)

/-- C4 counterexample: at `amount = u128::MAX`, `trade_fee_rate = 1` the
intermediate product fits in `u128`, yet `get_trade_fee` does not return
the ceiling — adding `MAX_PERCENTAGE` to the product overflows and
`ceil_div` surfaces `None`. -/
theorem C4_trade_fee_overflow_counterexample :
    (2 ^ 128 - 1) * 1 ≤ U128MAX ∧
    get_trade_fee (2 ^ 128 - 1) 1 ≠
      RRes.ok (((2 ^ 128 - 1) * 1 + (MAX_PERCENTAGE - 1)) / MAX_PERCENTAGE) ∧
    get_trade_fee (2 ^ 128 - 1) 1 = RRes.fail := by decide

/-- C4 (amended): `get_trade_fee` equals the ceiling of
`amount * rate / MAX_PERCENTAGE` whenever `amount * rate + MAX_PERCENTAGE`
fits in `u128` (not merely the product), and `get_protocol_fee` equals the
floor of `amount * rate / MAX_PERCENTAGE` whenever the product fits in
`u128`; the returned values are characterized as the exact ceiling/floor by
the accompanying order bounds (the `amount * rate = 0` case gives fee 0). -/
theorem C4_fee_rounding_directions :
    (∀ a r, a * r + MAX_PERCENTAGE ≤ U128MAX →
      get_trade_fee a r =
        RRes.ok ((a * r + (MAX_PERCENTAGE - 1)) / MAX_PERCENTAGE) ∧
      a * r ≤ (a * r + (MAX_PERCENTAGE - 1)) / MAX_PERCENTAGE *
        MAX_PERCENTAGE ∧
      (a * r + (MAX_PERCENTAGE - 1)) / MAX_PERCENTAGE * MAX_PERCENTAGE <
        a * r + MAX_PERCENTAGE) ∧
    (∀ a r, a * r ≤ U128MAX →
      get_protocol_fee a r = RRes.ok (a * r / MAX_PERCENTAGE) ∧
      a * r / MAX_PERCENTAGE * MAX_PERCENTAGE ≤ a * r ∧
      a * r < (a * r / MAX_PERCENTAGE + 1) * MAX_PERCENTAGE) := by
  constructor
  · intro a r h
    obtain ⟨h1, h2⟩ := ceil_formula_bounds (a * r)
    exact ⟨get_trade_fee_ok a r h, h1, h2⟩
  · intro a r h
    obtain ⟨h1, h2⟩ := floor_formula_bounds (a * r)
    exact ⟨get_protocol_fee_ok a r h, h1, h2⟩

/-- Witness for C4 (amended) at `(2_000_000, 2500)` and `(5, 500000)`:
`get_trade_fee` rounds up, `get_protocol_fee` rounds down. -/
theorem C4_fee_rounding_directions_witness :
    (get_trade_fee 2000000 2500 =
      RRes.ok ((2000000 * 2500 + (MAX_PERCENTAGE - 1)) / MAX_PERCENTAGE) ∧
      2000000 * 2500 ≤ (2000000 * 2500 + (MAX_PERCENTAGE - 1)) /
        MAX_PERCENTAGE * MAX_PERCENTAGE ∧
      (2000000 * 2500 + (MAX_PERCENTAGE - 1)) / MAX_PERCENTAGE *
        MAX_PERCENTAGE < 2000000 * 2500 + MAX_PERCENTAGE) ∧
    (get_protocol_fee 5 500000 = RRes.ok (5 * 500000 / MAX_PERCENTAGE) ∧
      5 * 500000 / MAX_PERCENTAGE * MAX_PERCENTAGE ≤ 5 * 500000 ∧
      5 * 500000 < (5 * 500000 / MAX_PERCENTAGE + 1) * MAX_PERCENTAGE) :=
  ⟨C4_fee_rounding_directions.1 2000000 2500 (by decide),
    C4_fee_rounding_directions.2 5 500000 (by decide)⟩

/-- C10: for every `amount ≤ u64::MAX` and `trade_fee_rate ≤
MAX_PERCENTAGE`, `get_trade_fee` succeeds and its value is at most
`amount`, so the subtraction `source_amount - trade_fee` inside `swap`
cannot underflow under that precondition. -/
theorem C10_trade_fee_le_amount (a r : Nat)
    (ha : a ≤ U64MAX) (hr : r ≤ MAX_PERCENTAGE) :
    get_trade_fee a r =
      RRes.ok ((a * r + (MAX_PERCENTAGE - 1)) / MAX_PERCENTAGE) ∧
    (a * r + (MAX_PERCENTAGE - 1)) / MAX_PERCENTAGE ≤ a := by
  have hfit : a * r + MAX_PERCENTAGE ≤ U128MAX := by
    have h1 : a * r ≤ U64MAX * MAX_PERCENTAGE := Nat.mul_le_mul ha hr
    have h2 : U64MAX * MAX_PERCENTAGE + MAX_PERCENTAGE ≤ U128MAX := by decide
    omega
  refine ⟨get_trade_fee_ok a r hfit, ?_⟩
  have h1 : a * r + (MAX_PERCENTAGE - 1) ≤
      a * MAX_PERCENTAGE + (MAX_PERCENTAGE - 1) := by
    have := Nat.mul_le_mul (Nat.le_refl a) hr
    omega
  calc (a * r + (MAX_PERCENTAGE - 1)) / MAX_PERCENTAGE
      ≤ (a * MAX_PERCENTAGE + (MAX_PERCENTAGE - 1)) / MAX_PERCENTAGE :=
        Nat.div_le_div_right h1
    _ = ((MAX_PERCENTAGE - 1) + a * MAX_PERCENTAGE) / MAX_PERCENTAGE := by
        rw [Nat.add_comm]
    _ = (MAX_PERCENTAGE - 1) / MAX_PERCENTAGE + a :=
        Nat.add_mul_div_right _ _ (by decide)
    _ = a := by rw [Nat.div_eq_of_lt (by decide), Nat.zero_add]

/-- Witness for C10 at `amount = 1000`, `rate = 30` (fee 1). -/
theorem C10_trade_fee_le_amount_witness :
    get_trade_fee 1000 30 =
      RRes.ok ((1000 * 30 + (MAX_PERCENTAGE - 1)) / MAX_PERCENTAGE) ∧
    (1000 * 30 + (MAX_PERCENTAGE - 1)) / MAX_PERCENTAGE ≤ 1000 :=
  C10_trade_fee_le_amount 1000 30 (by decide) (by decide)

/-- Inversion for `get_protocol_fee`: a success carries the floor quotient
and certifies that the product fit. -/
theorem get_protocol_fee_eq_ok {a r p : Nat}
    (h : get_protocol_fee a r = RRes.ok p) :
    p = a * r / MAX_PERCENTAGE ∧ a * r ≤ U128MAX := by
  unfold get_protocol_fee floor_div at h
  obtain ⟨q, hq, h⟩ := bind_eq_ok h
  obtain ⟨hq1, hq2⟩ := checked_mul_eq_some (tryOp_eq_ok hq)
  obtain ⟨hd1, -⟩ := checked_div_eq_some (tryOp_eq_ok h)
  subst hq1; subst hd1
  exact ⟨rfl, hq2⟩

/-- Inversion for `swap`: a successful result decomposes into the fee
computations, the post-fee input and the fee-less output, with the `u64`
narrowings recorded. -/
theorem swap_eq_ok {src x y tfr pfr : Nat} {r : SwapResult}
    (h : swap src x y tfr pfr = RRes.ok r) :
    ∃ tf pf post dest,
      get_trade_fee src tfr = RRes.ok tf ∧
      get_protocol_fee tf pfr = RRes.ok pf ∧
      tf ≤ src ∧ post = src - tf ∧
      swap_base_input_without_fees post x y = RRes.ok dest ∧
      r = { from_amount := post % 2 ^ 64, to_amount := dest % 2 ^ 64,
            trade_fee := tf % 2 ^ 64, protocol_fee := pf % 2 ^ 64 } := by
  unfold swap at h
  obtain ⟨tf, htf, h⟩ := bind_eq_ok h
  obtain ⟨pf, hpf, h⟩ := bind_eq_ok h
  obtain ⟨post, hpost, h⟩ := bind_eq_ok h
  obtain ⟨dest, hdest, h⟩ := bind_eq_ok h
  obtain ⟨hp1, hp2⟩ := checked_sub_eq_some (unwrap_eq_ok hpost)
  cases h
  exact ⟨tf, pf, post, dest, unwrapped_eq_ok htf, unwrapped_eq_ok hpf,
    hp2, hp1, hdest, rfl⟩

/-- C3: for every swap call with `source_amount ≤ u64::MAX`, both fee
rates at most `MAX_PERCENTAGE` and reserves in the valid domain
(`1 ≤ x*y ≤ u128::MAX`), a returned `SwapResult` satisfies
`from_amount + trade_fee = source_amount` exactly (no truncation) and
`protocol_fee ≤ trade_fee`. -/
theorem C3_swap_decomposition (src x y tfr pfr : Nat)
    (hsrc : src ≤ U64MAX) (htfr : tfr ≤ MAX_PERCENTAGE)
    (hpfr : pfr ≤ MAX_PERCENTAGE) (hxy1 : 1 ≤ x * y) (hxy2 : x * y ≤ U128MAX) :
    ∀ r, swap src x y tfr pfr = RRes.ok r →
      r.from_amount + r.trade_fee = src ∧ r.protocol_fee ≤ r.trade_fee := by
  intro r h
  obtain ⟨tf, pf, post, dest, htf, hpf, htfle, hpost, hbase, hr⟩ := swap_eq_ok h
  obtain ⟨hpfv, -⟩ := get_protocol_fee_eq_ok hpf
  have h64 : U64MAX + 1 = 2 ^ 64 := by decide
  have htlt : tf < 2 ^ 64 := by omega
  have hplt : post < 2 ^ 64 := by omega
  have hpfle : pf ≤ tf := by
    subst hpfv
    calc tf * pfr / MAX_PERCENTAGE
        ≤ tf * MAX_PERCENTAGE / MAX_PERCENTAGE :=
          Nat.div_le_div_right (Nat.mul_le_mul (Nat.le_refl tf) hpfr)
      _ = tf := Nat.mul_div_cancel tf (by decide)
  have hpflt : pf < 2 ^ 64 := by omega
  subst hr
  constructor
  · show post % 2 ^ 64 + tf % 2 ^ 64 = src
    rw [Nat.mod_eq_of_lt hplt, Nat.mod_eq_of_lt htlt]
    omega
  · show pf % 2 ^ 64 ≤ tf % 2 ^ 64
    rw [Nat.mod_eq_of_lt hpflt, Nat.mod_eq_of_lt htlt]
    exact hpfle

/-- Witness for C3: a full swap of 10000 against reserves (20000, 30000)
with a 0.25% trade fee and 50% protocol share. -/
theorem C3_swap_decomposition_witness :
    (SwapResult.mk 9975 9983 25 12).from_amount +
      (SwapResult.mk 9975 9983 25 12).trade_fee = 10000 ∧
    (SwapResult.mk 9975 9983 25 12).protocol_fee ≤
      (SwapResult.mk 9975 9983 25 12).trade_fee :=
  C3_swap_decomposition 10000 20000 30000 2500 500000 (by decide) (by decide)
    (by decide) (by decide) (by decide)
    (SwapResult.mk 9975 9983 25 12) (by decide)

/-- A lifted `unwrap` never surfaces a `None`. -/
theorem unwrapped_ne_fail {α : Type} (x : RRes α) :
    x.unwrapped ≠ RRes.fail := by
  cases x <;> simp [RRes.unwrapped]

/-- A plain `unwrap` never surfaces a `None`. -/
theorem unwrap_ne_fail {α : Type} (o : Option α) :
    RRes.unwrap o ≠ RRes.fail := by
  cases o <;> simp [RRes.unwrap]

/-- Sequencing preserves never-surfacing-`None`. -/
theorem bind_ne_fail {α β : Type} {x : RRes α} {f : α → RRes β}
    (hx : x ≠ RRes.fail) (hf : ∀ a, f a ≠ RRes.fail) :
    x.bind f ≠ RRes.fail := by
  cases x with
  | ok a => exact hf a
  | fail => exact absurd rfl hx
  | abort => simp [RRes.bind]

/-- The fee-less swap engine unwraps every step, so it never returns
`None`. -/
theorem swap_base_ne_fail (n S D : Nat) :
    swap_base_input_without_fees n S D ≠ RRes.fail := by
  unfold swap_base_input_without_fees
  apply bind_ne_fail (unwrap_ne_fail _)
  intro num
  apply bind_ne_fail (unwrap_ne_fail _)
  intro den
  exact unwrap_ne_fail _

/-- C5 counterexample: at `swap(2, 1, u128::MAX, 0, 0)` the numerator
multiplication `2 * u128::MAX` overflows, and `swap` panics
(`checked_mul(...).unwrap()`) instead of failing by returning `None` as the
claim states. -/
theorem C5_swap_overflow_counterexample :
    U128MAX < 2 * U128MAX ∧ swap 2 1 U128MAX 0 0 = RRes.abort := by decide

/-- C5 (amended): `swap` never returns `None` for any input — internal
arithmetic failures panic via `unwrap` instead of being surfaced, and no
business-logic condition produces a failure; on a multiplication overflow
`get_trade_fee` panics (its `ceil_div` unwraps the product) while
`get_protocol_fee` does surface the overflow as `None`. -/
theorem C5_failure_modes :
    (∀ src x y tfr pfr, swap src x y tfr pfr ≠ RRes.fail) ∧
    (∀ a r, U128MAX < a * r → get_trade_fee a r = RRes.abort) ∧
    (∀ a r, U128MAX < a * r → get_protocol_fee a r = RRes.fail) := by
  refine ⟨?_, ?_, ?_⟩
  · intro src x y tfr pfr
    unfold swap
    apply bind_ne_fail (unwrapped_ne_fail _)
    intro tf
    apply bind_ne_fail (unwrapped_ne_fail _)
    intro pf
    apply bind_ne_fail (unwrap_ne_fail _)
    intro post
    apply bind_ne_fail (swap_base_ne_fail _ _ _)
    intro dest
    simp
  · intro a r h
    have hmul : checked_mul a r = none := by
      unfold checked_mul; rw [if_neg (by omega)]
    unfold get_trade_fee ceil_div
    rw [hmul]
    rfl
  · intro a r h
    have hmul : checked_mul a r = none := by
      unfold checked_mul; rw [if_neg (by omega)]
    unfold get_protocol_fee floor_div
    rw [hmul]
    rfl

/-- Witness for C5 (amended) at concrete points: a small swap, and the fee
calculators at the overflowing product `2^127 * 4`. -/
theorem C5_failure_modes_witness :
    swap 3 5 7 0 0 ≠ RRes.fail ∧
    get_trade_fee (2 ^ 127) 4 = RRes.abort ∧
    get_protocol_fee (2 ^ 127) 4 = RRes.fail :=
  ⟨C5_failure_modes.1 3 5 7 0 0,
    C5_failure_modes.2.1 (2 ^ 127) 4 (by decide),
    C5_failure_modes.2.2 (2 ^ 127) 4 (by decide)⟩

/-- C7: on a degenerate input — destination output at least the current
destination reserve, or either current reserve zero —
`rebalance_pool_ratio` returns (does not fail) `from_to_lock = 0` with
`is_rate_tolerance_exceeded = true`, for every possible continuation
`rest`, i.e. without performing any further computation. -/
theorem C7_rebalance_degenerate_guard
    (rest : Nat → Nat → Nat → Nat → Nat → Nat → Option RebalanceResult)
    (to_amount_swapped current_source_amount current_destination_amount
      original_source_amount original_destination_amount
      ratio_change_tolerance_rate : Nat)
    (h : current_destination_amount ≤ to_amount_swapped ∨
      current_source_amount = 0 ∨ current_destination_amount = 0) :
    rebalance_pool_ratio rest to_amount_swapped current_source_amount
        current_destination_amount original_source_amount
        original_destination_amount ratio_change_tolerance_rate =
      some { from_to_lock := 0, is_rate_tolerance_exceeded := true } := by
  unfold rebalance_pool_ratio
  rw [if_pos h]

/-- Witness for C7 at the repository's own degenerate test vector
`(100, 0, 100, 1, 100, 1000000)`. -/
theorem C7_rebalance_degenerate_guard_witness :
    rebalance_pool_ratio (fun _ _ _ _ _ _ => none) 100 0 100 1 100 1000000 =
      some { from_to_lock := 0, is_rate_tolerance_exceeded := true } :=
  C7_rebalance_degenerate_guard (fun _ _ _ _ _ _ => none) 100 0 100 1 100
    1000000 (Or.inr (Or.inl rfl))

/-- C9 counterexample: in `deposit_lp`'s `total_lp_supply > 0` branch the
product `token_a_amount * total_lp_supply` is a plain `u64`
multiplication; at `(2^32, 1, 2^32, 1, 1)` it overflows `u64` (wrapping to
0 in release builds), so the result is not the double-width
`min(a*supply/ra, b*supply/rb)` the claim asserts. -/
theorem C9_liquidity_overflow_counterexample :
    deposit_lp (fun _ => 0) 4294967296 1 4294967296 1 1 ≠
      min (4294967296 * 4294967296 / 1) (1 * 4294967296 / 1) := by decide

/-- C9 (amended): the `utils.rs` core widens intermediate products to
`u128`, but `deposit_lp` (supply > 0 branch) and `withdraw_lp` multiply
`u64` values directly, so `amount * supply` and `lp_tokens * reserve` can
overflow `u64`; restricted to inputs whose products fit in `u64` (and
nonzero divisors, since a zero divisor panics), both functions return the
claimed proportional floors exactly. -/
theorem C9_products_fit_u64_exactness :
    (∀ (F : Nat → Nat) a b supply ra rb, supply ≠ 0 → ra ≠ 0 → rb ≠ 0 →
      a * supply ≤ U64MAX → b * supply ≤ U64MAX →
      deposit_lp F a b supply ra rb =
        min (a * supply / ra) (b * supply / rb)) ∧
    (∀ lp supply ra rb, supply ≠ 0 → ra ≠ 0 → rb ≠ 0 →
      lp * ra ≤ U64MAX → lp * rb ≤ U64MAX →
      withdraw_lp lp supply ra rb =
        (lp * ra / supply, lp * rb / supply)) := by
  have h64 : U64MAX + 1 = 2 ^ 64 := by decide
  constructor
  · intro F a b supply ra rb hs hra hrb h1 h2
    unfold deposit_lp
    rw [if_neg hs, Nat.mod_eq_of_lt (by omega), Nat.mod_eq_of_lt (by omega)]
  · intro lp supply ra rb hs hra hrb h1 h2
    unfold withdraw_lp
    rw [if_neg hs, Nat.mod_eq_of_lt (by omega), Nat.mod_eq_of_lt (by omega)]

/-- Witness for C9 (amended) at the repository's own test vectors
`deposit_lp(100, 200, 1000, 1000, 2000) = 100` and
`withdraw_lp(100, 1000, 1000, 2000) = (100, 200)`. -/
theorem C9_products_fit_u64_exactness_witness :
    deposit_lp (fun _ => 0) 100 200 1000 1000 2000 =
      min (100 * 1000 / 1000) (200 * 1000 / 2000) ∧
    withdraw_lp 100 1000 1000 2000 = (100 * 1000 / 1000, 100 * 2000 / 1000) :=
  ⟨C9_products_fit_u64_exactness.1 (fun _ => 0) 100 200 1000 1000 2000
      (by decide) (by decide) (by decide) (by decide) (by decide),
    C9_products_fit_u64_exactness.2 100 1000 1000 2000
      (by decide) (by decide) (by decide) (by decide) (by decide)⟩

@[simp] theorem ofTransfer_ok (a : Nat) (k : Nat → QRes) :
    ofTransfer (RRes.ok a) k = k a := rfl

@[simp] theorem ofTransfer_fail (k : Nat → QRes) :
    ofTransfer RRes.fail k = QRes.abort := rfl

@[simp] theorem ofTransfer_abort (k : Nat → QRes) :
    ofTransfer RRes.abort k = QRes.abort := rfl

@[simp] theorem ofUnwrap_some {α : Type} (a : α) (k : α → QRes) :
    ofUnwrap (some a) k = k a := rfl

@[simp] theorem ofUnwrap_none {α : Type} (k : α → QRes) :
    ofUnwrap (none : Option α) k = QRes.abort := rfl

@[simp] theorem ofSwap_ok (a : SwapResult) (k : SwapResult → QRes) :
    ofSwap (RRes.ok a) k = k a := rfl

@[simp] theorem ofSwap_fail (k : SwapResult → QRes) :
    ofSwap RRes.fail k = QRes.err ErrorCode.MathOverflow := rfl

@[simp] theorem ofSwap_abort (k : SwapResult → QRes) :
    ofSwap RRes.abort k = QRes.abort := rfl

@[simp] theorem ofRebalance_some (a : RebalanceResult)
    (k : RebalanceResult → QRes) : ofRebalance (some a) k = k a := rfl

@[simp] theorem ofRebalance_none (k : RebalanceResult → QRes) :
    ofRebalance none k = QRes.err ErrorCode.MathOverflow := rfl

/-- The epilogue of `quote` can only produce a successful quote, the
`OutputIsZero` error, or a panic — never a lock-boundary error. -/
theorem quote_epilogue_cases (d : Bool)
    (xc yc : Option TransferFeeSchedule) (mx my epoch : Nat)
    (ra : SwapResultWithFromToLock) (ex : Nat) :
    (∃ q, quote_epilogue d xc yc mx my epoch ra ex = QRes.ok q) ∨
    quote_epilogue d xc yc mx my epoch ra ex =
      QRes.err ErrorCode.OutputIsZero ∨
    quote_epilogue d xc yc mx my epoch ra ex = QRes.abort := by
  unfold quote_epilogue
  cases hg : get_transfer_fee
      (if (if d then my else mx) = mx then xc else yc) ra.to_amount epoch with
  | ok fee =>
    rw [ofTransfer_ok]
    cases hs : checked_sub ra.to_amount fee with
    | some u =>
      rw [ofUnwrap_some]
      by_cases hz : u = 0
      · right; left; rw [if_pos hz]
      · left; exact ⟨_, by rw [if_neg hz]⟩
    | none => right; right; rw [ofUnwrap_none]
  | fail => right; right; rw [ofTransfer_fail]
  | abort => right; right; rw [ofTransfer_abort]

/-- C6: in `quote`, for every input reaching the post-rebalance boundary
check (reserve subtractions succeed, input transfer fee computed, nonzero
exchange amount, `swap` succeeds, the rebalance oracle — standing for the
floating-point `rebalance_pool_ratio` — returns a result within tolerance),
the lock boundary check is direction-dependent: an X-to-Y quote fails with
`InsufficientPoolTokenXBalance` exactly when
`from_to_lock ≥ available_token_x_amount`, while a Y-to-X quote fails with
`InsufficientPoolTokenYBalance` exactly when
`from_to_lock > available_token_y_amount`. -/
theorem C6_lock_boundary_direction_dependent
    (rebalanceFn : Nat → Nat → Nat → Nat → Nat → Nat → Option RebalanceResult)
    (amount_in : Nat) (cfg : AmmConfig)
    (xtf ytf : Option TransferFeeSchedule)
    (mx my pfx pfy ulx uly lx ly rx ry epoch ifee : Nat)
    (sres : SwapResult) (reb : RebalanceResult)
    (h1 : pfx ≤ rx) (h2 : ulx ≤ rx - pfx)
    (h3 : pfy ≤ ry) (h4 : uly ≤ ry - pfy)
    (h5 : lx ≤ rx - pfx - ulx) (h6 : ly ≤ ry - pfy - uly) :
    ((get_transfer_fee xtf amount_in epoch = RRes.ok ifee) →
      amount_in - ifee ≠ 0 →
      swap (amount_in - ifee) (rx - pfx - ulx - lx) (ry - pfy - uly - ly)
          cfg.trade_fee_rate cfg.protocol_fee_rate = RRes.ok sres →
      rebalanceFn sres.to_amount (rx - pfx - ulx - lx) (ry - pfy - uly - ly)
          (rx - pfx - ulx) (ry - pfy - uly)
          cfg.ratio_change_tolerance_rate = some reb →
      reb.is_rate_tolerance_exceeded = false →
      (quote rebalanceFn amount_in true cfg xtf ytf mx my pfx pfy ulx uly
          lx ly rx ry epoch =
          QRes.err ErrorCode.InsufficientPoolTokenXBalance ↔
        rx - pfx - ulx - lx ≤ reb.from_to_lock)) ∧
    ((get_transfer_fee ytf amount_in epoch = RRes.ok ifee) →
      amount_in - ifee ≠ 0 →
      swap (amount_in - ifee) (ry - pfy - uly - ly) (rx - pfx - ulx - lx)
          cfg.trade_fee_rate cfg.protocol_fee_rate = RRes.ok sres →
      rebalanceFn sres.to_amount (ry - pfy - uly - ly) (rx - pfx - ulx - lx)
          (ry - pfy - uly) (rx - pfx - ulx)
          cfg.ratio_change_tolerance_rate = some reb →
      reb.is_rate_tolerance_exceeded = false →
      (quote rebalanceFn amount_in false cfg xtf ytf mx my pfx pfy ulx uly
          lx ly rx ry epoch =
          QRes.err ErrorCode.InsufficientPoolTokenYBalance ↔
        ry - pfy - uly - ly < reb.from_to_lock)) := by
  have s1 : checked_sub rx pfx = some (rx - pfx) := by
    unfold checked_sub; rw [if_pos h1]
  have s2 : checked_sub (rx - pfx) ulx = some (rx - pfx - ulx) := by
    unfold checked_sub; rw [if_pos h2]
  have s3 : checked_sub ry pfy = some (ry - pfy) := by
    unfold checked_sub; rw [if_pos h3]
  have s4 : checked_sub (ry - pfy) uly = some (ry - pfy - uly) := by
    unfold checked_sub; rw [if_pos h4]
  have s5 : checked_sub (rx - pfx - ulx) lx = some (rx - pfx - ulx - lx) := by
    unfold checked_sub; rw [if_pos h5]
  have s6 : checked_sub (ry - pfy - uly) ly = some (ry - pfy - uly - ly) := by
    unfold checked_sub; rw [if_pos h6]
  constructor
  · intro hfee hex hswap hreb htol
    unfold quote
    rw [s1, ofUnwrap_some, s2, ofUnwrap_some, s3, ofUnwrap_some, s4,
      ofUnwrap_some, s5, ofUnwrap_some, s6, ofUnwrap_some, if_pos rfl,
      hfee, ofTransfer_ok, if_neg hex, hswap, ofSwap_ok, hreb,
      ofRebalance_some, htol, if_neg Bool.false_ne_true]
    by_cases hb : rx - pfx - ulx - lx ≤ reb.from_to_lock
    · rw [if_pos hb]
      exact iff_of_true rfl hb
    · rw [if_neg hb]
      constructor
      · intro hcontra
        rcases quote_epilogue_cases true xtf ytf mx my epoch
            (SwapResultWithFromToLock.mk sres.from_amount sres.to_amount
              sres.trade_fee sres.protocol_fee reb.from_to_lock)
            (amount_in - ifee) with ⟨q, hq⟩ | hq | hq <;>
          rw [hq] at hcontra <;> simp at hcontra
      · intro hcontra
        exact absurd hcontra hb
  · intro hfee hex hswap hreb htol
    unfold quote
    rw [s1, ofUnwrap_some, s2, ofUnwrap_some, s3, ofUnwrap_some, s4,
      ofUnwrap_some, s5, ofUnwrap_some, s6, ofUnwrap_some,
      if_neg Bool.false_ne_true, hfee, ofTransfer_ok, if_neg hex, hswap,
      ofSwap_ok, hreb, ofRebalance_some, htol, if_neg Bool.false_ne_true]
    by_cases hb : ry - pfy - uly - ly < reb.from_to_lock
    · rw [if_pos hb]
      exact iff_of_true rfl hb
    · rw [if_neg hb]
      constructor
      · intro hcontra
        rcases quote_epilogue_cases false xtf ytf mx my epoch
            (SwapResultWithFromToLock.mk sres.from_amount sres.to_amount
              sres.trade_fee sres.protocol_fee reb.from_to_lock)
            (amount_in - ifee) with ⟨q, hq⟩ | hq | hq <;>
          rw [hq] at hcontra <;> simp at hcontra
      · intro hcontra
        exact absurd hcontra hb

/-- Witness for C6: a concrete X-to-Y quote whose rebalance lock equals the
whole available X reserve is rejected with
`InsufficientPoolTokenXBalance`. -/
theorem C6_lock_boundary_direction_dependent_witness :
    quote (fun _ _ _ _ _ _ => some (RebalanceResult.mk 1000 false)) 100 true
        (AmmConfig.mk 0 0 0 0 0 0 false) none none 1 2 0 0 0 0 0 0 1000 2000
        7 = QRes.err ErrorCode.InsufficientPoolTokenXBalance :=
  ((C6_lock_boundary_direction_dependent
      (fun _ _ _ _ _ _ => some (RebalanceResult.mk 1000 false)) 100
      (AmmConfig.mk 0 0 0 0 0 0 false) none none 1 2 0 0 0 0 0 0 1000 2000 7
      0 (SwapResult.mk 100 181 0 0) (RebalanceResult.mk 1000 false)
      (by decide) (by decide) (by decide) (by decide) (by decide)
      (by decide)).1
    (by decide) (by decide) (by decide) (by decide) (by decide)).mpr
    (by decide)

end DexMath
